import Mathlib

/-!
# Verification of the FIRMS fire-analysis acquisition-and-clustering pipeline

Shallow embedding of `app/core/firms_handler.py` (`FIRMSHandler.fetch_fire_data`
and `FIRMSHandler._apply_dbscan`), the core of the fire-analysis tool:
time-chunked retrieval with per-chunk failure isolation, dataset selection and
historical fallback, two-stage geofencing, and the 3-dimensional DBSCAN
clustering step.

Dates are modelled as integer day numbers (days since the civil epoch
1970-01-01, via the standard civil-calendar conversion), so that differences of
dates in whole days — the only way the source uses dates besides ordering and
formatting — are exact.  Coordinates and DBSCAN parameters are modelled as
rationals.
-/

namespace FireTool

/-- Day number of a civil date (Gregorian calendar, days since 1970-01-01).
Standard `days_from_civil` algorithm; used to translate the literal date
strings of the source's `DATASET_AVAILABILITY` table into day numbers. -/
def daysFromCivil (y m d : Int) : Int :=
  let y' := if m ≤ 2 then y - 1 else y
  let era := (if 0 ≤ y' then y' else y' - 399) / 400
  let yoe := y' - era * 400
  let mp := (m + 9) % 12
  let doy := (153 * mp + 2) / 5 + d - 1
  let doe := yoe * 365 + yoe / 4 - yoe / 100 + doy
  era * 146097 + doe - 719468

/-! ## Chunk planner

`fetch_fire_data` first swaps the dates if `start_date > end_date`
(auto-correction, lines 205-208), then builds `date_chunks` with the loop

    current_date = start_date_date
    while current_date <= end_date_date:
        chunk_end = min(current_date + timedelta(days=min(10, chunk_days)-1), end_date_date)
        date_chunks.append((current_date, chunk_end))
        current_date = chunk_end + timedelta(days=1)

(lines 316-322).  The loop is modelled with explicit fuel; `(e + 1 - s).toNat`
iterations always suffice because each iteration advances `current_date` by at
least one day whenever `chunk_days ≥ 1`. -/

/-- One iteration step of the chunk loop: fuel-indexed tail recursion.
`m` is the already-computed `min(10, chunk_days)`. -/
def planChunksAux (m e : Int) : Nat → Int → List (Int × Int)
  | 0, _ => []
  | fuel + 1, cur =>
    if cur ≤ e then
      (cur, min (cur + m - 1) e) :: planChunksAux m e fuel (min (cur + m - 1) e + 1)
    else []

/-- The chunk plan for an already-ordered range `[s, e]` (source lines 316-322). -/
def planChunks (s e chunkDays : Int) : List (Int × Int) :=
  planChunksAux (min 10 chunkDays) e (e + 1 - s).toNat s

/-- The chunk plan computed by `fetch_fire_data`: swap the dates when
`start_date > end_date` (lines 205-208), then plan. -/
def fetchPlan (s e chunkDays : Int) : List (Int × Int) :=
  planChunks (min s e) (max s e) chunkDays

/-! ## Detections and tables

A `Row` is one thermal-anomaly detection with the fields the core logic reads:
`latitude`, `longitude`, the acquisition date (as a day number; the value held
by whichever date column the table carries) and the radiative power `frp`
standing in for all remaining payload fields.  A `Table` is a parsed dataframe:
its column-name list plus its rows. -/

structure Row where
  latitude : ℚ
  longitude : ℚ
  acqDate : Int
  frp : ℚ
deriving DecidableEq, Repr

structure Table where
  columns : List String
  rows : List Row
deriving DecidableEq, Repr

/-- A well-formed bounding box `min_lon,min_lat,max_lon,max_lat` (the source
parses this from a 4-component comma-separated string; a malformed string
skips bbox filtering, which this model does not represent). -/
structure BBox where
  minLon : ℚ
  minLat : ℚ
  maxLon : ℚ
  maxLat : ℚ
deriving DecidableEq, Repr

/-- The bounding-box membership test used by both `_apply_dbscan` (lines
72-77) and the geofence stage of `fetch_fire_data` (lines 575-580). -/
def inBBox (b : BBox) (r : Row) : Bool :=
  decide (b.minLon ≤ r.longitude) && decide (r.longitude ≤ b.maxLon) &&
  decide (b.minLat ≤ r.latitude) && decide (r.latitude ≤ b.maxLat)

/-! ## DBSCAN

`_apply_dbscan` calls `sklearn.cluster.DBSCAN(eps=eps, min_samples=min_samples)`
on Euclidean coordinates.  We embed sklearn's algorithm: a point's
neighborhood is the set of points (itself included) at Euclidean distance at
most `eps`; a core point has at least `min_samples` neighbors; labels start at
`-1` (noise) and clusters `0, 1, …` are grown by depth-first expansion from
core points in index order.  Distances are compared squared so everything
stays in `ℚ`.

The neighborhood structure is computed first (`nbrIdxs`), and the label
assignment is a pure function of that adjacency (`dbscanFromAdj`). -/

/-- Squared Euclidean distance in 3 dimensions. -/
def sqDist3 (p q : ℚ × ℚ × ℚ) : ℚ :=
  (p.1 - q.1) ^ 2 + (p.2.1 - q.2.1) ^ 2 + (p.2.2 - q.2.2) ^ 2

/-- Squared Euclidean distance in 2 dimensions. -/
def sqDist2 (p q : ℚ × ℚ) : ℚ :=
  (p.1 - q.1) ^ 2 + (p.2 - q.2) ^ 2

/-- Neighborhood test at radius `eps` for 3-vectors. -/
def near3 (eps : ℚ) (p q : ℚ × ℚ × ℚ) : Bool :=
  decide (sqDist3 p q ≤ eps * eps)

/-- Neighborhood test at radius `eps` for 2-vectors. -/
def near2 (eps : ℚ) (p q : ℚ × ℚ) : Bool :=
  decide (sqDist2 p q ≤ eps * eps)

/-- Indices (into `pts`) of the neighbors of point `p`. -/
def nbrIdxsAux (near : α → α → Bool) (p : α) : List α → Nat → List Nat
  | [], _ => []
  | q :: rest, j =>
    if near p q then j :: nbrIdxsAux near p rest (j + 1)
    else nbrIdxsAux near p rest (j + 1)

def nbrIdxs (near : α → α → Bool) (pts : List α) (p : α) : List Nat :=
  nbrIdxsAux near p pts 0

/-- Label list lookup (out-of-range reads as `-1`, never produced by use). -/
def getLabel : List Int → Nat → Int
  | [], _ => -1
  | x :: _, 0 => x
  | _ :: xs, n + 1 => getLabel xs n

/-- Label list update (out-of-range is a no-op). -/
def setAt : List Int → Nat → Int → List Int
  | [], _, _ => []
  | _ :: xs, 0, v => v :: xs
  | x :: xs, n + 1, v => x :: setAt xs n v

/-- Adjacency lookup: neighbor-index list of point `j`. -/
def adjAt (adj : List (List Nat)) (j : Nat) : List Nat :=
  (adj.get? j).getD []

/-- Depth-first cluster expansion (sklearn's `dbscan_inner`): pop an index;
if unlabeled, label it with the current cluster, and if it is a core point
push its whole neighborhood. -/
def expandCluster (adj : List (List Nat)) (minSamples : Nat) (cl : Int) :
    Nat → List Nat → List Int → List Int
  | 0, _, labels => labels
  | _ + 1, [], labels => labels
  | fuel + 1, j :: stack, labels =>
    if getLabel labels j = -1 then
      let labels' := setAt labels j cl
      if minSamples ≤ (adjAt adj j).length then
        expandCluster adj minSamples cl fuel (adjAt adj j ++ stack) labels'
      else
        expandCluster adj minSamples cl fuel stack labels'
    else
      expandCluster adj minSamples cl fuel stack labels

/-- Outer loop: scan points in index order; start a new cluster at every
yet-unlabeled core point. -/
def dbscanOuter (adj : List (List Nat)) (minSamples : Nat) :
    Nat → Nat → Int → List Int → List Int
  | 0, _, _, labels => labels
  | rem + 1, i, nextCl, labels =>
    if getLabel labels i = -1 ∧ minSamples ≤ (adjAt adj i).length then
      let labels' := expandCluster adj minSamples nextCl
        ((adj.length + 1) * (adj.length + 1)) [i] labels
      dbscanOuter adj minSamples rem (i + 1) (nextCl + 1) labels'
    else
      dbscanOuter adj minSamples rem (i + 1) nextCl labels

/-- DBSCAN labels as a pure function of the adjacency structure. -/
def dbscanFromAdj (adj : List (List Nat)) (minSamples : Nat) : List Int :=
  dbscanOuter adj minSamples adj.length 0 0 (List.replicate adj.length (-1))

/-- DBSCAN labels of a point list under a neighborhood test. -/
def dbscanLabels (near : α → α → Bool) (minSamples : Nat) (pts : List α) :
    List Int :=
  dbscanFromAdj (pts.map (nbrIdxs near pts)) minSamples

/-! ## `_apply_dbscan` -/

/-- The date-column candidates scanned by `_apply_dbscan` (line 93) in order. -/
def dateColCandidates : List String := ["acq_date", "date", "Date", "ACQ_DATE"]

/-- The first recognized date column of a table, if any (lines 92-96). -/
def dateColOf (cols : List String) : Option String :=
  dateColCandidates.find? (fun c => cols.contains c)

/-- Constant `day_scale = 0.001` (line 110). -/
def dayScale : ℚ := 1 / 1000

/-- Minimum acquisition date over the rows (`df[date_col].min()`). -/
def minAcqDate (rows : List Row) : Int :=
  match rows with
  | [] => 0
  | r :: rs => rs.foldl (fun acc x => min acc x.acqDate) r.acqDate

/-- The 3-vector built for one detection (lines 103-114):
`(latitude, longitude, day_num * day_scale * max_time_diff_days)` where
`day_num` is the whole-day offset from the minimum date. -/
def embed3 (minDate : Int) (maxTimeDiffDays : ℚ) (r : Row) : ℚ × ℚ × ℚ :=
  (r.latitude, r.longitude, ((r.acqDate - minDate : Int) : ℚ) * dayScale * maxTimeDiffDays)

/-- The 2-vector used when no date column is recognized (line 120). -/
def embed2 (r : Row) : ℚ × ℚ :=
  (r.latitude, r.longitude)

/-- The bbox pre-filter inside `_apply_dbscan` (lines 64-89): identity when no
bbox is supplied. -/
def bboxFilter (bbox : Option BBox) (rows : List Row) : List Row :=
  match bbox with
  | none => rows
  | some b => rows.filter (inBBox b)

/-- The clustering core of `_apply_dbscan` (lines 91-123): 3-dimensional
DBSCAN when a date column is recognized, plain 2-dimensional spatial DBSCAN
otherwise. -/
def clusterCore (cols : List String) (rows : List Row) (eps : ℚ)
    (minSamples : Nat) (maxTimeDiffDays : ℚ) : List (Row × Int) :=
  match dateColOf cols with
  | some _ =>
    let minDate := minAcqDate rows
    rows.zip (dbscanLabels (near3 eps) minSamples (rows.map (embed3 minDate maxTimeDiffDays)))
  | none =>
    rows.zip (dbscanLabels (near2 eps) minSamples (rows.map embed2))

/-- Model of `FIRMSHandler._apply_dbscan` (lines 41-132).  Output rows paired with
their cluster label (`-1` = noise); the source materializes the label as a
`cluster` column on the dataframe. -/
def applyDbscan (tbl : Table) (eps : ℚ) (minSamples : Nat)
    (bbox : Option BBox) (maxTimeDiffDays : ℚ) : List (Row × Int) :=
  if tbl.rows.length < minSamples then
    tbl.rows.map (fun r => (r, -1))
  else
    match bbox with
    | some b =>
      let filtered := tbl.rows.filter (inBBox b)
      if filtered.length < minSamples then
        filtered.map (fun r => (r, -1))
      else
        clusterCore tbl.columns filtered eps minSamples maxTimeDiffDays
    | none => clusterCore tbl.columns tbl.rows eps minSamples maxTimeDiffDays

/-! ### Temporal invariance of the 2-dimensional fallback -/

/-- Reassign every row's acquisition date (arbitrarily, as a function of the
row). -/
def retimeRow (g : Row → Int) (r : Row) : Row :=
  ⟨r.latitude, r.longitude, g r, r.frp⟩

def retime (g : Row → Int) (tbl : Table) : Table :=
  ⟨tbl.columns, tbl.rows.map (retimeRow g)⟩

/-! ## Chunk fetching

One HTTP retrieval per (bbox, chunk) cell.  A `ChunkResp` abstracts the
observable outcome of `self.session.get(url)` plus parsing: whether the
request succeeded with a 2xx status (`transportOk`; a transport error or
`raise_for_status` lands in the `except` handler), whether
`response.text.strip()` is non-empty, whether the body contains the literal
markers `"Invalid"` / `"Error"`, whether `pd.read_csv` succeeds, and the
parsed table. -/

structure ChunkResp where
  transportOk : Bool
  bodyNonempty : Bool
  hasInvalid : Bool
  hasError : Bool
  parseOk : Bool
  table : Table
deriving DecidableEq, Repr

/-- Row-level date-bounds test `chunk_start_str <= acq_date <= chunk_end_str`
(string comparison of ISO dates in the source; chronological comparison of
day numbers here). -/
def inChunk (cs ce : Int) (r : Row) : Bool :=
  decide (cs ≤ r.acqDate) && decide (r.acqDate ≤ ce)

/-- Rows contributed by one chunk on the standard (non-Russia) paths
(source lines 536-556 and, identically, 493-513): the guard is
`response.text.strip() and "Invalid" not in response.text and "Error" not in
response.text`; a parse failure raises and is caught; a table without an
`acq_date` column is concatenated **unfiltered** (lines 553-554). -/
def standardChunkRows (resp : ChunkResp) (cs ce : Int) : List Row :=
  if resp.transportOk then
    if resp.bodyNonempty && !resp.hasInvalid && !resp.hasError then
      if resp.parseOk then
        if resp.table.rows.isEmpty then []
        else if resp.table.columns.contains "acq_date" then
          resp.table.rows.filter (inChunk cs ce)
        else resp.table.rows
      else []
    else []
  else []

/-- Rows contributed by one chunk on the per-sub-region Russia paths (source
lines 400-411, 428-439, 456-467): the guard is only
`response.text.strip() and "Invalid" not in response.text` — the `"Error"`
marker is **not** checked — and `chunk_df['acq_date']` is indexed without a
column check, so a missing column raises `KeyError`, which the `except`
catches (the chunk is skipped). -/
def russiaChunkRows (resp : ChunkResp) (cs ce : Int) : List Row :=
  if resp.transportOk then
    if resp.bodyNonempty && !resp.hasInvalid then
      if resp.parseOk then
        if resp.table.rows.isEmpty then []
        else if resp.table.columns.contains "acq_date" then
          resp.table.rows.filter (inChunk cs ce)
        else []
      else []
    else []
  else []

/-- Failure of a chunk fetch on the standard paths: transport error / non-2xx,
empty body, an `"Invalid"` or `"Error"` marker, or a parse failure. -/
def failStandard (resp : ChunkResp) : Bool :=
  !resp.transportOk ||
  !(resp.bodyNonempty && !resp.hasInvalid && !resp.hasError) ||
  !resp.parseOk

/-- Failure of a chunk fetch on the Russia paths: as `failStandard` but
without the `"Error"` marker, plus the `KeyError` raised when the parsed
table lacks the `acq_date` column. -/
def failRussia (resp : ChunkResp) : Bool :=
  !resp.transportOk ||
  !(resp.bodyNonempty && !resp.hasInvalid) ||
  !resp.parseOk ||
  (!resp.table.rows.isEmpty && !resp.table.columns.contains "acq_date")

/-- Sequential accumulation `all_results = pd.concat([all_results, …])` over
the fetch cells of a standard run. -/
def fetchAllStandard (cells : List ((Int × Int) × ChunkResp)) : List Row :=
  cells.foldl (fun acc cell => acc ++ standardChunkRows cell.2 cell.1.1 cell.1.2) []

/-- Sequential accumulation over the fetch cells of a Russia run (the three
regional passes — western, central, eastern — laid end to end). -/
def fetchAllRussia (cells : List ((Int × Int) × ChunkResp)) : List Row :=
  cells.foldl (fun acc cell => acc ++ russiaChunkRows cell.2 cell.1.1 cell.1.2) []

/-! ## Geofencing

`fetch_fire_data` lines 567-638: stage 1 filters the accumulated rows to the
bounding box and returns `None` ("no points found") if nothing survives;
stage 2, only under `use_strict_country_filtering` with a country geometry
available, keeps the rows inside the country polygon — unless that would keep
zero rows, in which case the bbox-only result is restored.  The polygon
containment test (`shapely`'s `contains`, an external collaborator) is
modelled as an opaque boolean predicate on rows; `poly = none` covers a
missing geometry as well as the `ImportError` / exception fallbacks, all of
which leave the bbox-only result in place. -/

def geofence (rows : List Row) (b : BBox) (strict : Bool)
    (poly : Option (Row → Bool)) : Option (List Row) :=
  let filtered := rows.filter (inBBox b)
  if filtered.isEmpty then none
  else if strict then
    match poly with
    | some contains =>
      let pts := filtered.filter contains
      if pts.isEmpty then some filtered else some pts
    | none => some filtered
  else some filtered

/-! ## Dataset selection and historical fallback

`fetch_fire_data` lines 154-249 and 278-314.  The availability table is the
source's inline `DATASET_AVAILABILITY` dictionary (lines 158-167; the
`from app.config.settings import DATASET_AVAILABILITY` raises `ImportError`
because the settings module defines no such name, so the inline fallback is
the effective table).  Python's `"_NRT" in dataset` and
`dataset.replace("_NRT", "_SP")` are modelled by direct recursion on the
identifier's character list. -/

/-- Left-to-right, non-overlapping replacement of `"_NRT"` by `"_SP"`
(Python `str.replace`). -/
def replaceNRTAux : List Char → List Char
  | '_' :: 'N' :: 'R' :: 'T' :: rest => '_' :: 'S' :: 'P' :: replaceNRTAux rest
  | c :: rest => c :: replaceNRTAux rest
  | [] => []

/-- Substring test for `"_NRT"` (Python `"_NRT" in dataset`). -/
def hasNRT : List Char → Bool
  | '_' :: 'N' :: 'R' :: 'T' :: _ => true
  | _ :: rest => hasNRT rest
  | [] => false

def replaceNRT (s : String) : String := ⟨replaceNRTAux s.data⟩

def containsNRT (s : String) : Bool := hasNRT s.data

/-- The inline `DATASET_AVAILABILITY` table (source lines 158-167), with the
literal `min_date` / `max_date` strings translated to day numbers. -/
def DATASET_AVAILABILITY : List (String × Int × Int) :=
  [("MODIS_NRT", daysFromCivil 2024 12 1, daysFromCivil 2025 3 24),
   ("MODIS_SP", daysFromCivil 2000 11 1, daysFromCivil 2024 12 31),
   ("VIIRS_NOAA20_NRT", daysFromCivil 2024 12 1, daysFromCivil 2025 3 24),
   ("VIIRS_NOAA20_SP", daysFromCivil 2018 4 1, daysFromCivil 2025 3 24),
   ("VIIRS_NOAA21_NRT", daysFromCivil 2024 1 17, daysFromCivil 2025 3 24),
   ("VIIRS_SNPP_NRT", daysFromCivil 2025 1 1, daysFromCivil 2025 3 24),
   ("VIIRS_SNPP_SP", daysFromCivil 2012 1 20, daysFromCivil 2025 3 24),
   ("LANDSAT_NRT", daysFromCivil 2022 6 20, daysFromCivil 2025 3 24)]

/-- Dictionary key membership `dataset in DATASET_AVAILABILITY`. -/
def availRegistered (ds : String) : Bool :=
  DATASET_AVAILABILITY.any (fun p => p.1 == ds)

/-- The registered `(min_date, max_date)` of a dataset, if any. -/
def availRange (ds : String) : Option (Int × Int) :=
  (DATASET_AVAILABILITY.find? (fun p => p.1 == ds)).map Prod.snd

/-- Historical-data flag `need_historical = (today - start_date_date).days > 30` (line 211). -/
def needHistorical (today startD : Int) : Bool :=
  decide (30 < today - startD)

/-- Dataset substitution (lines 216-228): when historical data is needed and
the requested identifier names an NRT variant, use its `_SP` counterpart if
registered, else the long-history fallback `VIIRS_SNPP_SP`. -/
def selectDataset (dataset : String) (startD today : Int) : String :=
  if needHistorical today startD && containsNRT dataset then
    if availRegistered (replaceNRT dataset) then replaceNRT dataset
    else "VIIRS_SNPP_SP"
  else dataset

/-- Date-range clamping against the effective dataset's registered range
(lines 239-249). -/
def clampRange (ds : String) (s e : Int) : Int × Int :=
  match availRange ds with
  | none => (s, e)
  | some (mn, mx) => (if s < mn then mn else s, if mx < e then mx else e)

/-- Observable outcome of one probe ("test") API call (lines 284-314):
transport success, the body-validity predicate
`text.strip() and "Invalid" not in text and "Error" not in text`, parse
success, and the parsed record count `len(test_df)`. -/
structure ProbeResult where
  transportOk : Bool
  bodyNonempty : Bool
  hasInvalid : Bool
  hasError : Bool
  parseOk : Bool
  recordCount : Nat
deriving DecidableEq, Repr

def probeValid (r : ProbeResult) : Bool :=
  r.bodyNonempty && !r.hasInvalid && !r.hasError

/-- Outcome of the probe stage: the dataset the run proceeds with, whether
the original dataset was re-queried, and whether the run aborted
(`return None`). -/
structure ProbeOutcome where
  dataset : String
  requeried : Bool
  aborted : Bool
deriving DecidableEq, Repr

/-- The probe-and-fallback logic of lines 284-314.  `dataset` is the
effective (possibly substituted) dataset, `original` the requested one,
`needHist` the historical flag, `endD` the (clamped) end date.  Any exception
inside the `try` block is caught at line 313 and the run proceeds with
whatever `dataset` holds at that point — in particular, once the fallback
assignment `dataset = original_dataset` (line 297) has run, a failing
re-probe still leaves the original dataset in effect. -/
def probeStage (dataset original : String) (needHist : Bool) (endD today : Int)
    (r1 r2 : ProbeResult) : ProbeOutcome :=
  if r1.transportOk then
    if probeValid r1 then
      if r1.parseOk then
        if 0 < r1.recordCount then ⟨dataset, false, false⟩
        else
          if needHist && (dataset != original) && decide (-30 < endD - today) then
            if r2.transportOk then
              if probeValid r2 then
                if r2.parseOk then
                  if 0 < r2.recordCount then ⟨original, true, false⟩
                  else ⟨original, true, true⟩
                else ⟨original, true, false⟩
              else ⟨original, true, false⟩
            else ⟨original, true, false⟩
          else ⟨dataset, false, false⟩
      else ⟨dataset, false, false⟩
    else ⟨dataset, false, false⟩
  else ⟨dataset, false, false⟩

/-- Dataset resolution composed end to end (lines 205-314): swap the dates if
reversed, compute the historical flag, substitute the dataset, reject an
unregistered result (`return None`, line 236), clamp the date range, then run
the probe stage. -/
def resolveAndProbe (requested : String) (s e today : Int)
    (r1 r2 : ProbeResult) : Option (ProbeOutcome × Int × Int) :=
  let s1 := min s e
  let e1 := max s e
  let nh := needHistorical today s1
  let ds := selectDataset requested s1 today
  if availRegistered ds then
    let r := clampRange ds s1 e1
    some (probeStage ds requested nh r.2 today r1 r2, r.1, r.2)
  else none

/-- The claim's re-query condition, written from its own words: "the original
dataset's `max_date` is still within 30 days of the requested window
`[s, e]`" — distance from the point `dsMax` to the closed interval. -/
def maxDateWithin30OfWindow (dsMax s e : Int) : Bool :=
  if dsMax < s then decide (s - dsMax ≤ 30)
  else if e < dsMax then decide (dsMax - e ≤ 30)
  else true

/-! ### Two-point DBSCAN evaluation

For a two-point input with `min_samples = 1` both points are core points, so
the labels depend only on whether the two points are within `eps` of each
other: one shared cluster, or two singleton clusters. -/

theorem dbscanLabels_pair {α : Type} (near : α → α → Bool) (p q : α)
    (hpp : near p p = true) (hqq : near q q = true)
    (hsym : near q p = near p q) :
    dbscanLabels near 1 [p, q] = if near p q then [0, 0] else [0, 1] := by
  cases hb : near p q with
  | true =>
    have hmap : [p, q].map (nbrIdxs near [p, q]) = [[0, 1], [0, 1]] := by
      simp [nbrIdxs, nbrIdxsAux, hpp, hqq, hb, hsym]
    rw [dbscanLabels, hmap]
    decide
  | false =>
    have hmap : [p, q].map (nbrIdxs near [p, q]) = [[0], [1]] := by
      simp [nbrIdxs, nbrIdxsAux, hpp, hqq, hb, hsym]
    rw [dbscanLabels, hmap]
    decide

theorem near3_refl (eps : ℚ) (p : ℚ × ℚ × ℚ) : near3 eps p p = true := by
  have h : sqDist3 p p = 0 := by simp [sqDist3]
  simp [near3, h, mul_self_nonneg eps]

theorem sqDist3_comm (p q : ℚ × ℚ × ℚ) : sqDist3 q p = sqDist3 p q := by
  simp only [sqDist3]; ring

/-- Clustering of exactly two spatially coincident detections whose
acquisition dates differ by `d` days, with `min_samples = 1` (satisfied by
every point): the labels agree iff the scaled temporal separation
`d * day_scale * max_time_diff_days` is within `eps` (compared squared, as
DBSCAN's Euclidean test does). -/
theorem applyDbscan_pair (cols : List String) (c : String)
    (hc : dateColOf cols = some c) (lat lon f0 f1 : ℚ) (t0 : Int) (d : Nat)
    (eps mtd : ℚ) :
    applyDbscan ⟨cols, [⟨lat, lon, t0, f0⟩, ⟨lat, lon, t0 + d, f1⟩]⟩
        eps 1 none mtd =
      if ((d : ℚ) * dayScale * mtd) ^ 2 ≤ eps * eps then
        [(⟨lat, lon, t0, f0⟩, 0), (⟨lat, lon, t0 + d, f1⟩, 0)]
      else
        [(⟨lat, lon, t0, f0⟩, 0), (⟨lat, lon, t0 + d, f1⟩, 1)] := by
  set r0 : Row := ⟨lat, lon, t0, f0⟩ with hr0
  set r1 : Row := ⟨lat, lon, t0 + d, f1⟩ with hr1
  have hmin : minAcqDate [r0, r1] = t0 := by
    simp only [minAcqDate, List.foldl, hr0, hr1]
    omega
  have hlen : ¬ ([r0, r1].length < 1) := by simp
  rw [applyDbscan]
  rw [if_neg hlen]
  show clusterCore cols [r0, r1] eps 1 mtd = _
  rw [clusterCore, hc]
  simp only [hmin]
  set p := embed3 t0 mtd r0 with hp
  set q := embed3 t0 mtd r1 with hq
  have hsq : sqDist3 p q = ((d : ℚ) * dayScale * mtd) ^ 2 := by
    simp only [hp, hq, embed3, sqDist3, hr0, hr1]
    push_cast
    ring
  have hnear : near3 eps p q = decide (((d : ℚ) * dayScale * mtd) ^ 2 ≤ eps * eps) := by
    rw [near3, hsq]
  have hsym : near3 eps q p = near3 eps p q := by
    rw [near3, near3, sqDist3_comm]
  rw [List.map_cons, List.map_cons, List.map_nil]
  rw [dbscanLabels_pair (near3 eps) p q (near3_refl eps p) (near3_refl eps q) hsym]
  rw [hnear]
  by_cases hcond : ((d : ℚ) * dayScale * mtd) ^ 2 ≤ eps * eps
  · rw [if_pos hcond, if_pos (by rw [decide_eq_true_iff]; exact hcond)]
    simp [List.zip]
  · rw [if_neg hcond, if_neg (by rw [decide_eq_true_iff]; exact hcond)]
    simp [List.zip]

/-- Claim C4, amended: For exactly two detections at identical (latitude,
longitude) whose acquisition dates differ by `d` days, with `min_samples = 1`
(so the neighborhood-size requirement is satisfied by every point) and `eps`,
`day_scale`, `max_time_diff_days` fixed: the two detections receive the same
cluster label iff the scaled temporal separation
`d × day_scale × max_time_diff_days` is within `eps` (squared comparison, as
in DBSCAN's Euclidean neighborhood test) — not for every
`d ≤ max_time_diff_days`. -/
theorem temporal_separation (cols : List String) (c : String)
    (hc : dateColOf cols = some c) (lat lon f0 f1 : ℚ) (t0 : Int) (d : Nat)
    (eps mtd : ℚ) :
    ((applyDbscan ⟨cols, [⟨lat, lon, t0, f0⟩, ⟨lat, lon, t0 + d, f1⟩]⟩
        eps 1 none mtd).map Prod.snd = [0, 0] ↔
      ((d : ℚ) * dayScale * mtd) ^ 2 ≤ eps * eps) ∧
    ((applyDbscan ⟨cols, [⟨lat, lon, t0, f0⟩, ⟨lat, lon, t0 + d, f1⟩]⟩
        eps 1 none mtd).map Prod.snd = [0, 1] ↔
      ¬ ((d : ℚ) * dayScale * mtd) ^ 2 ≤ eps * eps) := by
  rw [applyDbscan_pair cols c hc lat lon f0 f1 t0 d eps mtd]
  by_cases hcond : ((d : ℚ) * dayScale * mtd) ^ 2 ≤ eps * eps
  · rw [if_pos hcond]
    simp [hcond]
  · rw [if_neg hcond]
    simp [hcond]

/-- Witness for C4 (amended): at `eps = 0.01`, `max_time_diff_days = 5`,
`min_samples = 1`, two coincident detections get the same cluster at `d = 1`
and different clusters at `d = 50`. -/
theorem temporal_separation_witness :
    dateColOf ["latitude", "longitude", "acq_date"] = some "acq_date" ∧
    (applyDbscan ⟨["latitude", "longitude", "acq_date"],
        [⟨0, 0, 0, 1⟩, ⟨0, 0, (0 : Int) + (1 : Nat), 2⟩]⟩
      (1/100) 1 none 5).map Prod.snd = [0, 0] ∧
    (applyDbscan ⟨["latitude", "longitude", "acq_date"],
        [⟨0, 0, 0, 1⟩, ⟨0, 0, (0 : Int) + (50 : Nat), 2⟩]⟩
      (1/100) 1 none 5).map Prod.snd = [0, 1] :=
  ⟨by decide,
   (temporal_separation _ "acq_date" (by decide) 0 0 1 2 0 1 (1/100) 5).1.mpr
     (by norm_num [dayScale]),
   (temporal_separation _ "acq_date" (by decide) 0 0 1 2 0 50 (1/100) 5).2.mpr
     (by norm_num [dayScale])⟩

/-- Claim C4, counterexample: The claim "if `d ≤ max_time_diff_days` the two
detections are density-reachable and receive the same cluster label" fails at
`d = 3`, `eps = 0.01`, `max_time_diff_days = 5`, `min_samples = 1`: the two
spatially coincident detections land in different clusters because the scaled
temporal gap `3 × 0.001 × 5 = 0.015` exceeds `eps = 0.01`. -/
theorem temporal_separation_cex :
    (3 : Int) ≤ 5 ∧
    (applyDbscan ⟨["latitude", "longitude", "acq_date"],
        [⟨0, 0, 0, 1⟩, ⟨0, 0, (0 : Int) + (3 : Nat), 2⟩]⟩
      (1/100) 1 none 5).map Prod.snd = [0, 1] := by
  refine ⟨by norm_num, ?_⟩
  rw [applyDbscan_pair _ "acq_date" (by decide) 0 0 1 2 0 3 (1/100) 5]
  rw [if_neg (by norm_num [dayScale])]
  simp

/-! ### Label-list length preservation -/

theorem setAt_length (l : List Int) (n : Nat) (v : Int) :
    (setAt l n v).length = l.length := by
  induction l generalizing n with
  | nil => rfl
  | cons x xs ih =>
    cases n with
    | zero => rfl
    | succ n => simp [setAt, ih]

theorem expandCluster_length (adj : List (List Nat)) (minS : Nat) (cl : Int) :
    ∀ (fuel : Nat) (stack : List Nat) (labels : List Int),
      (expandCluster adj minS cl fuel stack labels).length = labels.length := by
  intro fuel
  induction fuel with
  | zero => intro stack labels; rfl
  | succ fuel ih =>
    intro stack labels
    cases stack with
    | nil => rfl
    | cons j rest =>
      rw [expandCluster]
      by_cases h : getLabel labels j = -1
      · rw [if_pos h]
        by_cases hcore : minS ≤ (adjAt adj j).length
        · rw [if_pos hcore, ih, setAt_length]
        · rw [if_neg hcore, ih, setAt_length]
      · rw [if_neg h, ih]

theorem dbscanOuter_length (adj : List (List Nat)) (minS : Nat) :
    ∀ (rem i : Nat) (nextCl : Int) (labels : List Int),
      (dbscanOuter adj minS rem i nextCl labels).length = labels.length := by
  intro rem
  induction rem with
  | zero => intro i nextCl labels; rfl
  | succ rem ih =>
    intro i nextCl labels
    rw [dbscanOuter]
    by_cases h : getLabel labels i = -1 ∧ minS ≤ (adjAt adj i).length
    · rw [if_pos h, ih, expandCluster_length]
    · rw [if_neg h, ih]

theorem dbscanFromAdj_length (adj : List (List Nat)) (minS : Nat) :
    (dbscanFromAdj adj minS).length = adj.length := by
  rw [dbscanFromAdj, dbscanOuter_length, List.length_replicate]

theorem dbscanLabels_length {α : Type} (near : α → α → Bool) (minS : Nat)
    (pts : List α) : (dbscanLabels near minS pts).length = pts.length := by
  rw [dbscanLabels, dbscanFromAdj_length, List.length_map]

/-! ### Minimum acquisition date -/

theorem foldl_min_le_init (l : List Int) (a : Int) : l.foldl min a ≤ a := by
  induction l generalizing a with
  | nil => exact le_refl a
  | cons x xs ih => exact le_trans (ih (min a x)) (min_le_left a x)

theorem foldl_min_le_mem (l : List Int) (a : Int) :
    ∀ x ∈ l, l.foldl min a ≤ x := by
  induction l generalizing a with
  | nil => intro x hx; simp at hx
  | cons y ys ih =>
    intro x hx
    rcases List.mem_cons.1 hx with rfl | hx'
    · exact le_trans (foldl_min_le_init ys (min a x)) (min_le_right a x)
    · exact ih (min a y) x hx'

theorem foldl_min_mem (l : List Int) (a : Int) :
    l.foldl min a = a ∨ l.foldl min a ∈ l := by
  induction l generalizing a with
  | nil => exact Or.inl rfl
  | cons x xs ih =>
    rcases ih (min a x) with h | h
    · rcases min_choice a x with hm | hm
      · exact Or.inl (by rw [List.foldl_cons, h, hm])
      · exact Or.inr (by rw [List.foldl_cons, h, hm]; exact List.mem_cons_self _ _)
    · exact Or.inr (List.mem_cons_of_mem _ h)

theorem minAcqDate_le (rows : List Row) : ∀ r ∈ rows, minAcqDate rows ≤ r.acqDate := by
  intro r hr
  cases rows with
  | nil => simp at hr
  | cons r0 rs =>
    have hfold : minAcqDate (r0 :: rs) = (rs.map Row.acqDate).foldl min r0.acqDate := by
      rw [minAcqDate, List.foldl_map]
    rcases List.mem_cons.1 hr with rfl | hr'
    · rw [hfold]; exact foldl_min_le_init _ _
    · rw [hfold]
      exact foldl_min_le_mem _ _ r.acqDate (List.mem_map_of_mem Row.acqDate hr')

theorem minAcqDate_mem (rows : List Row) (h : rows ≠ []) :
    minAcqDate rows ∈ rows.map Row.acqDate := by
  cases rows with
  | nil => exact absurd rfl h
  | cons r0 rs =>
    have hfold : minAcqDate (r0 :: rs) = (rs.map Row.acqDate).foldl min r0.acqDate := by
      rw [minAcqDate, List.foldl_map]
    rw [hfold, List.map_cons]
    rcases foldl_min_mem (rs.map Row.acqDate) r0.acqDate with h' | h'
    · rw [h']; exact List.mem_cons_self _ _
    · exact List.mem_cons_of_mem _ h'

/-! ### Shape of `_apply_dbscan`'s output -/

theorem bboxFilter_length_le (bbox : Option BBox) (rows : List Row) :
    (bboxFilter bbox rows).length ≤ rows.length := by
  cases bbox with
  | none => exact le_refl _
  | some b => exact List.length_filter_le _ _

theorem clusterCore_map_fst (cols : List String) (rows : List Row) (eps : ℚ)
    (minS : Nat) (mtd : ℚ) :
    (clusterCore cols rows eps minS mtd).map Prod.fst = rows := by
  cases h : dateColOf cols with
  | some c =>
    rw [clusterCore, h]
    exact List.map_fst_zip _ _ (by rw [dbscanLabels_length, List.length_map])
  | none =>
    rw [clusterCore, h]
    exact List.map_fst_zip _ _ (by rw [dbscanLabels_length, List.length_map])

/-- Claim C3: For every detection table containing a recognized date column, the
clustering stage embeds each (bbox-surviving) detection as the 3-vector
`(latitude, longitude, day_offset × day_scale × max_time_diff_days)` with
`day_scale = 0.001` and `day_offset` the whole-day difference from the minimum
acquisition date over all rows, and DBSCAN with radius `eps` and neighborhood
size `min_samples` is applied to exactly these vectors. -/
theorem cluster_vectors (tbl : Table) (eps mtd : ℚ) (minS : Nat)
    (bbox : Option BBox) (c : String) (hc : dateColOf tbl.columns = some c)
    (hlen : minS ≤ (bboxFilter bbox tbl.rows).length) :
    applyDbscan tbl eps minS bbox mtd =
      (bboxFilter bbox tbl.rows).zip
        (dbscanLabels (near3 eps) minS
          ((bboxFilter bbox tbl.rows).map
            (embed3 (minAcqDate (bboxFilter bbox tbl.rows)) mtd))) ∧
    (∀ r : Row, embed3 (minAcqDate (bboxFilter bbox tbl.rows)) mtd r =
      (r.latitude, r.longitude,
        ((r.acqDate - minAcqDate (bboxFilter bbox tbl.rows) : Int) : ℚ) *
          (1 / 1000) * mtd)) ∧
    (∀ r ∈ bboxFilter bbox tbl.rows,
      minAcqDate (bboxFilter bbox tbl.rows) ≤ r.acqDate) ∧
    (bboxFilter bbox tbl.rows ≠ [] →
      minAcqDate (bboxFilter bbox tbl.rows) ∈
        (bboxFilter bbox tbl.rows).map Row.acqDate) := by
  refine ⟨?_, fun r => rfl, minAcqDate_le _, minAcqDate_mem _⟩
  have hlen' : ¬ (tbl.rows.length < minS) := by
    have := bboxFilter_length_le bbox tbl.rows
    omega
  rw [applyDbscan.eq_def, if_neg hlen']
  cases bbox with
  | none =>
    show clusterCore tbl.columns tbl.rows eps minS mtd = _
    rw [clusterCore, hc]
    rfl
  | some b =>
    have hguard : ¬ ((tbl.rows.filter (inBBox b)).length < minS) := by
      simp only [bboxFilter] at hlen
      omega
    show (if (tbl.rows.filter (inBBox b)).length < minS then _ else _) = _
    rw [if_neg hguard]
    show clusterCore tbl.columns (tbl.rows.filter (inBBox b)) eps minS mtd = _
    rw [clusterCore, hc]
    rfl

/-- Witness for C3: a concrete two-row table with an `acq_date` column. -/
theorem cluster_vectors_witness :
    dateColOf (Table.columns ⟨["acq_date"], [⟨1, 2, 10, 7⟩, ⟨3, 4, 12, 8⟩]⟩) =
      some "acq_date" ∧
    1 ≤ (bboxFilter none (Table.rows ⟨["acq_date"], [⟨1, 2, 10, 7⟩, ⟨3, 4, 12, 8⟩]⟩)).length ∧
    (applyDbscan ⟨["acq_date"], [⟨1, 2, 10, 7⟩, ⟨3, 4, 12, 8⟩]⟩ 1 1 none 5 =
      (bboxFilter none (Table.rows ⟨["acq_date"], [⟨1, 2, 10, 7⟩, ⟨3, 4, 12, 8⟩]⟩)).zip
        (dbscanLabels (near3 1) 1
          ((bboxFilter none (Table.rows ⟨["acq_date"], [⟨1, 2, 10, 7⟩, ⟨3, 4, 12, 8⟩]⟩)).map
            (embed3 (minAcqDate (bboxFilter none
              (Table.rows ⟨["acq_date"], [⟨1, 2, 10, 7⟩, ⟨3, 4, 12, 8⟩]⟩))) 5)))) :=
  ⟨by decide, by decide,
   (cluster_vectors ⟨["acq_date"], [⟨1, 2, 10, 7⟩, ⟨3, 4, 12, 8⟩]⟩ 1 5 1 none
     "acq_date" (by decide) (by decide)).1⟩

/-! ### Branch-unfolding lemmas for `_apply_dbscan` -/

theorem applyDbscan_small (tbl : Table) (eps : ℚ) (minS : Nat)
    (bbox : Option BBox) (mtd : ℚ) (hlen : tbl.rows.length < minS) :
    applyDbscan tbl eps minS bbox mtd = tbl.rows.map (fun r => (r, -1)) := by
  rw [applyDbscan.eq_def, if_pos hlen]

theorem applyDbscan_none (tbl : Table) (eps : ℚ) (minS : Nat) (mtd : ℚ)
    (hlen : ¬ tbl.rows.length < minS) :
    applyDbscan tbl eps minS none mtd =
      clusterCore tbl.columns tbl.rows eps minS mtd := by
  rw [applyDbscan.eq_def, if_neg hlen]

theorem applyDbscan_some (tbl : Table) (b : BBox) (eps : ℚ) (minS : Nat)
    (mtd : ℚ) (hlen : ¬ tbl.rows.length < minS)
    (hguard : ¬ (tbl.rows.filter (inBBox b)).length < minS) :
    applyDbscan tbl eps minS (some b) mtd =
      clusterCore tbl.columns (tbl.rows.filter (inBBox b)) eps minS mtd := by
  rw [applyDbscan.eq_def, if_neg hlen]
  show (if (tbl.rows.filter (inBBox b)).length < minS then _ else _) = _
  rw [if_neg hguard]

theorem applyDbscan_some_small (tbl : Table) (b : BBox) (eps : ℚ) (minS : Nat)
    (mtd : ℚ) (hlen : ¬ tbl.rows.length < minS)
    (hguard : (tbl.rows.filter (inBBox b)).length < minS) :
    applyDbscan tbl eps minS (some b) mtd =
      (tbl.rows.filter (inBBox b)).map (fun r => (r, -1)) := by
  rw [applyDbscan.eq_def, if_neg hlen]
  show (if (tbl.rows.filter (inBBox b)).length < minS then _ else _) = _
  rw [if_pos hguard]

/-- Claim C9, amended: `_apply_dbscan` first re-applies the bounding-box filter
and therefore can drop rows; but whenever every input row already lies within
the supplied bbox — as always holds in the pipeline, where geofencing runs
before clustering — or when no bbox is supplied, the clusterer is
label-assigning only: the output contains exactly the input rows, in order,
with only the cluster label attached. -/
theorem clusterer_frame (tbl : Table) (eps mtd : ℚ) (minS : Nat) (b : BBox)
    (hin : ∀ r ∈ tbl.rows, inBBox b r = true) :
    (applyDbscan tbl eps minS (some b) mtd).map Prod.fst = tbl.rows ∧
    (applyDbscan tbl eps minS none mtd).map Prod.fst = tbl.rows := by
  have hfilter : tbl.rows.filter (inBBox b) = tbl.rows := List.filter_eq_self.2 hin
  constructor
  · by_cases hlen : tbl.rows.length < minS
    · rw [applyDbscan_small _ _ _ _ _ hlen, List.map_map]
      exact List.map_id _
    · rw [applyDbscan_some _ _ _ _ _ hlen (by rw [hfilter]; exact hlen), hfilter]
      exact clusterCore_map_fst _ _ _ _ _
  · by_cases hlen : tbl.rows.length < minS
    · rw [applyDbscan_small _ _ _ _ _ hlen, List.map_map]
      exact List.map_id _
    · rw [applyDbscan_none _ _ _ _ hlen]
      exact clusterCore_map_fst _ _ _ _ _

/-- Witness for C9 (amended): a concrete table whose rows all lie inside the
bbox. -/
theorem clusterer_frame_witness :
    (∀ r ∈ (Table.rows ⟨["acq_date"], [⟨1, 2, 10, 7⟩, ⟨3, 4, 12, 8⟩]⟩),
      inBBox ⟨0, 0, 10, 10⟩ r = true) ∧
    (applyDbscan ⟨["acq_date"], [⟨1, 2, 10, 7⟩, ⟨3, 4, 12, 8⟩]⟩ 1 2
        (some ⟨0, 0, 10, 10⟩) 5).map Prod.fst =
      Table.rows ⟨["acq_date"], [⟨1, 2, 10, 7⟩, ⟨3, 4, 12, 8⟩]⟩ ∧
    (applyDbscan ⟨["acq_date"], [⟨1, 2, 10, 7⟩, ⟨3, 4, 12, 8⟩]⟩ 1 2 none 5).map
        Prod.fst = Table.rows ⟨["acq_date"], [⟨1, 2, 10, 7⟩, ⟨3, 4, 12, 8⟩]⟩ :=
  ⟨by decide,
   (clusterer_frame ⟨["acq_date"], [⟨1, 2, 10, 7⟩, ⟨3, 4, 12, 8⟩]⟩ 1 5 2
     ⟨0, 0, 10, 10⟩ (by decide)).1,
   (clusterer_frame ⟨["acq_date"], [⟨1, 2, 10, 7⟩, ⟨3, 4, 12, 8⟩]⟩ 1 5 2
     ⟨0, 0, 10, 10⟩ (by decide)).2⟩

/-- Claim C9, counterexample: The clusterer is not label-assigning only on
every input: with a bbox supplied, a detection table whose single row lies
outside the bbox comes back empty — the row is dropped by `_apply_dbscan`'s
internal bbox filter (source lines 64-89). -/
theorem clusterer_frame_cex :
    (applyDbscan ⟨["acq_date"], [⟨20, 20, 0, 1⟩]⟩ 1 1
        (some ⟨0, 0, 10, 10⟩) 5).map Prod.fst ≠
      Table.rows ⟨["acq_date"], [⟨20, 20, 0, 1⟩]⟩ := by
  decide

theorem inBBox_retimeRow (b : BBox) (g : Row → Int) (r : Row) :
    inBBox b (retimeRow g r) = inBBox b r := rfl

theorem filter_retime_comm (g : Row → Int) (b : BBox) (rows : List Row) :
    (rows.map (retimeRow g)).filter (inBBox b) =
      (rows.filter (inBBox b)).map (retimeRow g) := by
  induction rows with
  | nil => rfl
  | cons x xs ih =>
    by_cases hx : inBBox b x
    · simp only [List.map_cons, List.filter_cons, inBBox_retimeRow, hx,
        if_pos, ih]
    · simp only [List.map_cons, List.filter_cons, inBBox_retimeRow,
        Bool.not_eq_true] at *
      simp [hx, ih]

theorem bboxFilter_retime (g : Row → Int) (bbox : Option BBox) (rows : List Row) :
    bboxFilter bbox (rows.map (retimeRow g)) =
      (bboxFilter bbox rows).map (retimeRow g) := by
  cases bbox with
  | none => rfl
  | some b => exact filter_retime_comm g b rows

theorem embed2_retimeRow (g : Row → Int) (r : Row) :
    embed2 (retimeRow g r) = embed2 r := rfl

/-- Claim C10: If the detection table contains none of the recognized date
columns (`acq_date`, `date`, `Date`, `ACQ_DATE`), the clusterer silently
falls back to purely spatial 2-dimensional clustering over
(latitude, longitude) with the same `eps` and `min_samples` — and the labels
are entirely independent of the rows' acquisition dates and of
`max_time_diff_days`, so detections arbitrarily far apart in time can share a
cluster. -/
theorem spatial_fallback (tbl : Table) (eps mtd mtd' : ℚ) (minS : Nat)
    (bbox : Option BBox) (g : Row → Int)
    (hc : dateColOf tbl.columns = none) :
    (minS ≤ (bboxFilter bbox tbl.rows).length →
      applyDbscan tbl eps minS bbox mtd =
        (bboxFilter bbox tbl.rows).zip
          (dbscanLabels (near2 eps) minS ((bboxFilter bbox tbl.rows).map embed2))) ∧
    (applyDbscan (retime g tbl) eps minS bbox mtd').map Prod.snd =
      (applyDbscan tbl eps minS bbox mtd).map Prod.snd := by
  have hcols : (retime g tbl).columns = tbl.columns := rfl
  have hmapembed : ∀ rows : List Row,
      (rows.map (retimeRow g)).map embed2 = rows.map embed2 := by
    intro rows
    rw [List.map_map]
    exact List.map_congr_left (fun r _ => embed2_retimeRow g r)
  have hclusterSnd : ∀ rows : List Row,
      (clusterCore (retime g tbl).columns (rows.map (retimeRow g)) eps minS mtd').map Prod.snd
        = (clusterCore tbl.columns rows eps minS mtd).map Prod.snd := by
    intro rows
    rw [clusterCore, clusterCore, hcols, hc]
    show ((rows.map (retimeRow g)).zip
        (dbscanLabels (near2 eps) minS ((rows.map (retimeRow g)).map embed2))).map Prod.snd = _
    rw [hmapembed]
    rw [List.map_snd_zip _ _ (by rw [dbscanLabels_length, List.length_map, List.length_map]),
      List.map_snd_zip _ _ (by rw [dbscanLabels_length, List.length_map])]
  constructor
  · intro hlen
    have hlen' : ¬ (tbl.rows.length < minS) := by
      have := bboxFilter_length_le bbox tbl.rows
      omega
    cases bbox with
    | none =>
      rw [applyDbscan_none _ _ _ _ hlen', clusterCore, hc]
      rfl
    | some b =>
      have hguard : ¬ ((tbl.rows.filter (inBBox b)).length < minS) := by
        simp only [bboxFilter] at hlen
        omega
      rw [applyDbscan_some _ _ _ _ _ hlen' hguard, clusterCore, hc]
      rfl
  · have hrowlen : (retime g tbl).rows.length = tbl.rows.length := by
      show (tbl.rows.map (retimeRow g)).length = _
      rw [List.length_map]
    by_cases hlen : tbl.rows.length < minS
    · rw [applyDbscan_small _ _ _ _ _ (by rw [hrowlen]; exact hlen),
        applyDbscan_small _ _ _ _ _ hlen]
      show ((tbl.rows.map (retimeRow g)).map (fun r => (r, (-1 : Int)))).map Prod.snd = _
      rw [List.map_map, List.map_map, List.map_map]
      rfl
    · cases bbox with
      | none =>
        rw [applyDbscan_none _ _ _ _ (by rw [hrowlen]; exact hlen),
          applyDbscan_none _ _ _ _ hlen]
        exact hclusterSnd tbl.rows
      | some b =>
        have hfl : ((retime g tbl).rows.filter (inBBox b)) =
            (tbl.rows.filter (inBBox b)).map (retimeRow g) := filter_retime_comm g b tbl.rows
        have hfllen : ((retime g tbl).rows.filter (inBBox b)).length =
            (tbl.rows.filter (inBBox b)).length := by
          rw [hfl, List.length_map]
        by_cases hguard : (tbl.rows.filter (inBBox b)).length < minS
        · rw [applyDbscan_some_small _ _ _ _ _ (by rw [hrowlen]; exact hlen)
              (by rw [hfllen]; exact hguard),
            applyDbscan_some_small _ _ _ _ _ hlen hguard]
          rw [hfl, List.map_map, List.map_map, List.map_map]
          rfl
        · rw [applyDbscan_some _ _ _ _ _ (by rw [hrowlen]; exact hlen)
              (by rw [hfllen]; exact hguard),
            applyDbscan_some _ _ _ _ _ hlen hguard]
          rw [hfl]
          exact hclusterSnd (tbl.rows.filter (inBBox b))

/-- Witness for C10: a concrete table with no recognized date column; the
date-reassignment `g` moves one detection 100000 days away without changing
the labels. -/
theorem spatial_fallback_witness :
    dateColOf (Table.columns ⟨["latitude", "longitude"], [⟨1, 2, 0, 7⟩, ⟨1, 2, 1, 8⟩]⟩) = none ∧
    (1 ≤ (bboxFilter none (Table.rows ⟨["latitude", "longitude"], [⟨1, 2, 0, 7⟩, ⟨1, 2, 1, 8⟩]⟩)).length →
      applyDbscan ⟨["latitude", "longitude"], [⟨1, 2, 0, 7⟩, ⟨1, 2, 1, 8⟩]⟩ 1 1 none 5 =
        (bboxFilter none (Table.rows ⟨["latitude", "longitude"], [⟨1, 2, 0, 7⟩, ⟨1, 2, 1, 8⟩]⟩)).zip
          (dbscanLabels (near2 1) 1
            ((bboxFilter none (Table.rows ⟨["latitude", "longitude"], [⟨1, 2, 0, 7⟩, ⟨1, 2, 1, 8⟩]⟩)).map embed2))) ∧
    (applyDbscan (retime (fun _ => 100000) ⟨["latitude", "longitude"], [⟨1, 2, 0, 7⟩, ⟨1, 2, 1, 8⟩]⟩)
        1 1 none 9).map Prod.snd =
      (applyDbscan ⟨["latitude", "longitude"], [⟨1, 2, 0, 7⟩, ⟨1, 2, 1, 8⟩]⟩ 1 1 none 5).map Prod.snd :=
  ⟨by decide,
   (spatial_fallback ⟨["latitude", "longitude"], [⟨1, 2, 0, 7⟩, ⟨1, 2, 1, 8⟩]⟩ 1 5 9 1 none
     (fun _ => 100000) (by decide)).1,
   (spatial_fallback ⟨["latitude", "longitude"], [⟨1, 2, 0, 7⟩, ⟨1, 2, 1, 8⟩]⟩ 1 5 9 1 none
     (fun _ => 100000) (by decide)).2⟩

theorem foldl_append_eq_join {α β : Type} (f : α → List β) :
    ∀ (l : List α) (acc : List β),
      l.foldl (fun a x => a ++ f x) acc = acc ++ (l.map f).flatten := by
  intro l
  induction l with
  | nil => intro acc; simp
  | cons x xs ih => intro acc; simp [ih, List.append_assoc]

theorem fetchAllStandard_eq_join (cells : List ((Int × Int) × ChunkResp)) :
    fetchAllStandard cells =
      (cells.map (fun cell => standardChunkRows cell.2 cell.1.1 cell.1.2)).flatten := by
  rw [fetchAllStandard, foldl_append_eq_join]
  rfl

theorem fetchAllRussia_eq_join (cells : List ((Int × Int) × ChunkResp)) :
    fetchAllRussia cells =
      (cells.map (fun cell => russiaChunkRows cell.2 cell.1.1 cell.1.2)).flatten := by
  rw [fetchAllRussia, foldl_append_eq_join]
  rfl

theorem standardChunkRows_fail (resp : ChunkResp) (cs ce : Int)
    (h : failStandard resp = true) : standardChunkRows resp cs ce = [] := by
  rw [standardChunkRows]
  rw [failStandard] at h
  split_ifs with h1 h2 h3 h4 h5 <;> simp_all

theorem russiaChunkRows_fail (resp : ChunkResp) (cs ce : Int)
    (h : failRussia resp = true) : russiaChunkRows resp cs ce = [] := by
  rw [russiaChunkRows]
  rw [failRussia] at h
  split_ifs with h1 h2 h3 h4 h5 <;> simp_all

/-- Claim C2, amended: Per-chunk failure isolation: a failing chunk contributes
nothing and never discards other chunks' data — the aggregate is always the
concatenation of the per-chunk contributions, so removing a failing cell
leaves the aggregate unchanged.  On the standard paths a chunk fails on
transport error, non-2xx status, empty body, a body containing `"Invalid"` or
`"Error"`, or a parse failure; on the per-sub-region Russia paths the
`"Error"` marker is **not** part of the failure condition (only `"Invalid"`
is), and a parsed table lacking the `acq_date` column fails instead. -/
theorem chunk_isolation (cells pre post : List ((Int × Int) × ChunkResp))
    (cell : (Int × Int) × ChunkResp) (resp : ChunkResp) (cs ce : Int) :
    (failStandard resp = true → standardChunkRows resp cs ce = []) ∧
    (failRussia resp = true → russiaChunkRows resp cs ce = []) ∧
    (resp.hasError = true → standardChunkRows resp cs ce = []) ∧
    fetchAllStandard cells =
      (cells.map (fun c => standardChunkRows c.2 c.1.1 c.1.2)).flatten ∧
    fetchAllRussia cells =
      (cells.map (fun c => russiaChunkRows c.2 c.1.1 c.1.2)).flatten ∧
    (failStandard cell.2 = true →
      fetchAllStandard (pre ++ cell :: post) = fetchAllStandard (pre ++ post)) ∧
    (failRussia cell.2 = true →
      fetchAllRussia (pre ++ cell :: post) = fetchAllRussia (pre ++ post)) := by
  refine ⟨standardChunkRows_fail resp cs ce, russiaChunkRows_fail resp cs ce,
    ?_, fetchAllStandard_eq_join cells, fetchAllRussia_eq_join cells, ?_, ?_⟩
  · intro herr
    exact standardChunkRows_fail resp cs ce (by simp [failStandard, herr])
  · intro hfail
    rw [fetchAllStandard_eq_join, fetchAllStandard_eq_join]
    simp [standardChunkRows_fail cell.2 _ _ hfail]
  · intro hfail
    rw [fetchAllRussia_eq_join, fetchAllRussia_eq_join]
    simp [russiaChunkRows_fail cell.2 _ _ hfail]

/-- Witness for C2 (amended): one failed cell (body contains `"Error"`, on a
standard path) between two successful cells. -/
theorem chunk_isolation_witness :
    failStandard ⟨true, true, false, true, true, ⟨["acq_date"], [⟨1, 1, 3, 1⟩]⟩⟩ = true ∧
    fetchAllStandard
      [((0, 6), ⟨true, true, false, false, true, ⟨["acq_date"], [⟨1, 1, 2, 1⟩]⟩⟩),
       ((7, 13), ⟨true, true, false, true, true, ⟨["acq_date"], [⟨1, 1, 9, 1⟩]⟩⟩),
       ((14, 20), ⟨true, true, false, false, true, ⟨["acq_date"], [⟨1, 1, 15, 1⟩]⟩⟩)] =
    fetchAllStandard
      [((0, 6), ⟨true, true, false, false, true, ⟨["acq_date"], [⟨1, 1, 2, 1⟩]⟩⟩),
       ((14, 20), ⟨true, true, false, false, true, ⟨["acq_date"], [⟨1, 1, 15, 1⟩]⟩⟩)] :=
  ⟨by decide,
   (chunk_isolation []
     [((0, 6), ⟨true, true, false, false, true, ⟨["acq_date"], [⟨1, 1, 2, 1⟩]⟩⟩)]
     [((14, 20), ⟨true, true, false, false, true, ⟨["acq_date"], [⟨1, 1, 15, 1⟩]⟩⟩)]
     ((7, 13), ⟨true, true, false, true, true, ⟨["acq_date"], [⟨1, 1, 9, 1⟩]⟩⟩)
     ⟨true, true, false, true, true, ⟨["acq_date"], [⟨1, 1, 3, 1⟩]⟩⟩ 0 6).2.2.2.2.2.1
     (by decide)⟩

/-- Claim C2, counterexample: On a Russia sub-region path, a chunk whose
response body contains the literal marker `"Error"` (but not `"Invalid"`) and
still parses is **not** skipped: its rows enter the aggregate, contradicting
the claim that the `"Error"` marker causes a skip on every fetch path. -/
theorem chunk_isolation_cex :
    (ChunkResp.hasError ⟨true, true, false, true, true, ⟨["acq_date"], [⟨1, 2, 3, 4⟩]⟩⟩) = true ∧
    fetchAllRussia [((0, 6), ⟨true, true, false, true, true, ⟨["acq_date"], [⟨1, 2, 3, 4⟩]⟩⟩)] =
      [⟨1, 2, 3, 4⟩] := by
  decide

/-- Claim C8, amended: Rows whose acquisition date falls outside the chunk's
closed bounds are discarded before concatenation whenever the parsed table
carries an `acq_date` column (on the Russia paths always: a missing column
fails the chunk); on the standard paths a table lacking the column is
concatenated unfiltered.  Consequently, for chunks with disjoint bounds and
column-carrying tables, no row is contributed by more than one chunk. -/
theorem chunk_date_filter (resp resp' : ChunkResp) (cs ce cs' ce' : Int) (r : Row)
    (hcol : resp.table.columns.contains "acq_date" = true) :
    (∀ x ∈ standardChunkRows resp cs ce, cs ≤ x.acqDate ∧ x.acqDate ≤ ce) ∧
    (∀ x ∈ russiaChunkRows resp cs ce, cs ≤ x.acqDate ∧ x.acqDate ≤ ce) ∧
    (ce < cs' → resp'.table.columns.contains "acq_date" = true →
      r ∈ standardChunkRows resp cs ce → r ∉ standardChunkRows resp' cs' ce') := by
  have hfilter : ∀ (rows : List Row) (a b : Int) (x : Row),
      x ∈ rows.filter (inChunk a b) → a ≤ x.acqDate ∧ x.acqDate ≤ b := by
    intro rows a b x hx
    have h2 := (List.mem_filter.1 hx).2
    rw [inChunk, Bool.and_eq_true, decide_eq_true_eq, decide_eq_true_eq] at h2
    exact h2
  have hstd : ∀ (resp0 : ChunkResp), resp0.table.columns.contains "acq_date" = true →
      ∀ (a b : Int), ∀ x ∈ standardChunkRows resp0 a b,
        a ≤ x.acqDate ∧ x.acqDate ≤ b := by
    intro resp0 hcol0 a b x hx
    rw [standardChunkRows] at hx
    split_ifs at hx <;>
      first
        | exact hfilter _ _ _ _ hx
        | exact absurd hx (List.not_mem_nil x)
  refine ⟨hstd resp hcol cs ce, ?_, ?_⟩
  · intro x hx
    rw [russiaChunkRows] at hx
    split_ifs at hx <;>
      first
        | exact hfilter _ _ _ _ hx
        | exact absurd hx (List.not_mem_nil x)
  · intro hlt hcol' hr hr'
    have h1 := (hstd resp hcol cs ce r hr).2
    have h2 := (hstd resp' hcol' cs' ce' r hr').1
    omega

/-- Witness for C8 (amended): a chunk whose archive over-returns one
out-of-bounds row keeps only the in-bounds row, and disjoint chunks do not
share it. -/
theorem chunk_date_filter_witness :
    (Table.columns ⟨["acq_date"], [⟨1, 1, 2, 1⟩, ⟨1, 1, 9, 1⟩]⟩).contains "acq_date" = true ∧
    (∀ x ∈ standardChunkRows ⟨true, true, false, false, true,
        ⟨["acq_date"], [⟨1, 1, 2, 1⟩, ⟨1, 1, 9, 1⟩]⟩⟩ 0 6,
      0 ≤ x.acqDate ∧ x.acqDate ≤ 6) ∧
    ((6 : Int) < 7 →
      (Table.columns ⟨["acq_date"], [⟨1, 1, 2, 1⟩, ⟨1, 1, 9, 1⟩]⟩).contains "acq_date" = true →
      (⟨1, 1, 2, 1⟩ : Row) ∈ standardChunkRows ⟨true, true, false, false, true,
        ⟨["acq_date"], [⟨1, 1, 2, 1⟩, ⟨1, 1, 9, 1⟩]⟩⟩ 0 6 →
      (⟨1, 1, 2, 1⟩ : Row) ∉ standardChunkRows ⟨true, true, false, false, true,
        ⟨["acq_date"], [⟨1, 1, 2, 1⟩, ⟨1, 1, 9, 1⟩]⟩⟩ 7 13) :=
  ⟨by decide,
   (chunk_date_filter
     ⟨true, true, false, false, true, ⟨["acq_date"], [⟨1, 1, 2, 1⟩, ⟨1, 1, 9, 1⟩]⟩⟩
     ⟨true, true, false, false, true, ⟨["acq_date"], [⟨1, 1, 2, 1⟩, ⟨1, 1, 9, 1⟩]⟩⟩
     0 6 7 13 ⟨1, 1, 2, 1⟩ (by decide)).1,
   (chunk_date_filter
     ⟨true, true, false, false, true, ⟨["acq_date"], [⟨1, 1, 2, 1⟩, ⟨1, 1, 9, 1⟩]⟩⟩
     ⟨true, true, false, false, true, ⟨["acq_date"], [⟨1, 1, 2, 1⟩, ⟨1, 1, 9, 1⟩]⟩⟩
     0 6 7 13 ⟨1, 1, 2, 1⟩ (by decide)).2.2⟩

/-- Claim C8, counterexample: A successfully parsed chunk response whose table
has no `acq_date` column (here the date lives in a column named `date`) is
concatenated unfiltered on the standard path: a row with acquisition date 100
survives a chunk bounded by [0, 6]. -/
theorem chunk_date_filter_cex :
    standardChunkRows ⟨true, true, false, false, true,
        ⟨["latitude", "longitude", "date"], [⟨1, 2, 100, 4⟩]⟩⟩ 0 6 = [⟨1, 2, 100, 4⟩] ∧
    ¬ ((100 : Int) ≤ 6) := by
  decide

/-- Claim C5: Every row of the geofenced output lies inside the bounding box;
when strict country filtering is enabled and a valid country polygon is
available, every output row additionally lies inside the polygon — unless the
polygon filter would keep zero rows, in which case the bbox-only filtered
result is returned unchanged. -/
theorem geofence_containment (rows : List Row) (b : BBox) (strict : Bool)
    (poly : Option (Row → Bool)) (out : List Row)
    (h : geofence rows b strict poly = some out) :
    (∀ r ∈ out, inBBox b r = true) ∧
    (∀ contains : Row → Bool, strict = true → poly = some contains →
      (∀ r ∈ out, contains r = true) ∨
      ((rows.filter (inBBox b)).filter contains = [] ∧
        out = rows.filter (inBBox b))) := by
  rw [geofence.eq_def] at h
  by_cases hempty : (rows.filter (inBBox b)).isEmpty
  · rw [if_pos hempty] at h
    exact absurd h (by simp)
  · rw [if_neg hempty] at h
    have hbbox : ∀ l : List Row, l = rows.filter (inBBox b) →
        ∀ r ∈ l, inBBox b r = true := by
      rintro l rfl r hr
      exact (List.mem_filter.1 hr).2
    by_cases hstrict : strict
    · rw [if_pos hstrict] at h
      cases poly with
      | none =>
        replace h : some (rows.filter (inBBox b)) = some out := h
        have hout : out = rows.filter (inBBox b) := by
          simpa using h.symm
        refine ⟨hbbox out hout, ?_⟩
        intro contains _ hcontra
        exact absurd hcontra (by simp)
      | some contains =>
        replace h : (if ((rows.filter (inBBox b)).filter contains).isEmpty then
            some (rows.filter (inBBox b))
          else some ((rows.filter (inBBox b)).filter contains)) = some out := h
        by_cases hpts : ((rows.filter (inBBox b)).filter contains).isEmpty
        · rw [if_pos hpts] at h
          have hout : out = rows.filter (inBBox b) := by simpa using h.symm
          refine ⟨hbbox out hout, ?_⟩
          intro contains' _ hc
          have hcc : contains' = contains := by
            simpa using hc.symm
          subst hcc
          exact Or.inr ⟨List.isEmpty_iff.1 hpts, hout⟩
        · rw [if_neg hpts] at h
          have hout : out = (rows.filter (inBBox b)).filter contains := by
            simpa using h.symm
          constructor
          · intro r hr
            rw [hout] at hr
            exact (List.mem_filter.1 (List.mem_filter.1 hr).1).2
          · intro contains' _ hc
            have hcc : contains' = contains := by simpa using hc.symm
            subst hcc
            refine Or.inl ?_
            intro r hr
            rw [hout] at hr
            exact (List.mem_filter.1 hr).2
    · rw [if_neg hstrict] at h
      have hout : out = rows.filter (inBBox b) := by simpa using h.symm
      refine ⟨hbbox out hout, ?_⟩
      intro contains hs _
      exact absurd hs hstrict

/-- Witness for C5: four rows, two inside the bbox, one of those inside the
"polygon" (latitude below 3); strict filtering keeps exactly that one. -/
theorem geofence_containment_witness :
    geofence [⟨1, 1, 0, 1⟩, ⟨5, 5, 0, 1⟩, ⟨20, 20, 0, 1⟩, ⟨1, 50, 0, 1⟩]
        ⟨0, 0, 10, 10⟩ true (some (fun r => decide (r.latitude < 3))) =
      some [⟨1, 1, 0, 1⟩] ∧
    ((∀ r ∈ [(⟨1, 1, 0, 1⟩ : Row)], inBBox ⟨0, 0, 10, 10⟩ r = true) ∧
    (∀ contains : Row → Bool, true = true →
      (some (fun r => decide (r.latitude < 3))) = some contains →
      (∀ r ∈ [(⟨1, 1, 0, 1⟩ : Row)], contains r = true) ∨
      (([⟨1, 1, 0, 1⟩, ⟨5, 5, 0, 1⟩, ⟨20, 20, 0, 1⟩, ⟨1, 50, 0, 1⟩].filter
          (inBBox ⟨0, 0, 10, 10⟩)).filter contains = [] ∧
        [(⟨1, 1, 0, 1⟩ : Row)] = [⟨1, 1, 0, 1⟩, ⟨5, 5, 0, 1⟩, ⟨20, 20, 0, 1⟩,
          ⟨1, 50, 0, 1⟩].filter (inBBox ⟨0, 0, 10, 10⟩)))) :=
  ⟨by decide,
   geofence_containment [⟨1, 1, 0, 1⟩, ⟨5, 5, 0, 1⟩, ⟨20, 20, 0, 1⟩, ⟨1, 50, 0, 1⟩]
     ⟨0, 0, 10, 10⟩ true (some (fun r => decide (r.latitude < 3))) [⟨1, 1, 0, 1⟩]
     (by decide)⟩

/-- Claim C6: The pipeline treats the request as historical iff
`today − start_date > 30` days; when historical and the requested identifier
names an NRT variant, the identifier obtained by replacing `"_NRT"` with
`"_SP"` is used if registered in the availability table, and otherwise the
long-history fallback `VIIRS_SNPP_SP` is used; in all other cases the
requested identifier is kept. -/
theorem dataset_selection (dataset : String) (startD today : Int) :
    (needHistorical today startD = true ↔ 30 < today - startD) ∧
    (30 < today - startD → containsNRT dataset = true →
      selectDataset dataset startD today =
        (if availRegistered (replaceNRT dataset) then replaceNRT dataset
         else "VIIRS_SNPP_SP")) ∧
    (¬ 30 < today - startD → selectDataset dataset startD today = dataset) ∧
    (containsNRT dataset = false → selectDataset dataset startD today = dataset) := by
  refine ⟨by simp [needHistorical], ?_, ?_, ?_⟩
  · intro h hn
    have hb : (needHistorical today startD && containsNRT dataset) = true := by
      simp [needHistorical, hn]
      exact h
    rw [selectDataset, if_pos hb]
  · intro h
    have hb : (needHistorical today startD && containsNRT dataset) = false := by
      simp [needHistorical, h]
    rw [selectDataset, if_neg (by simp [hb])]
  · intro h
    have hb : (needHistorical today startD && containsNRT dataset) = false := by
      simp [h]
    rw [selectDataset, if_neg (by simp [hb])]

/-- Witness for C6: a historical request on `VIIRS_NOAA20_NRT` (SP
counterpart registered), a historical request on `VIIRS_NOAA21_NRT` (no SP
counterpart → `VIIRS_SNPP_SP`), and a recent request (kept unchanged). -/
theorem dataset_selection_witness :
    (30 < (40 : Int) - 0) ∧
    selectDataset "VIIRS_NOAA20_NRT" 0 40 = "VIIRS_NOAA20_SP" ∧
    selectDataset "VIIRS_NOAA21_NRT" 0 40 = "VIIRS_SNPP_SP" ∧
    selectDataset "VIIRS_NOAA20_NRT" 0 20 = "VIIRS_NOAA20_NRT" := by
  refine ⟨by norm_num, ?_, ?_, ?_⟩
  · have h := (dataset_selection "VIIRS_NOAA20_NRT" 0 40).2.1 (by norm_num) (by decide)
    rw [h]
    decide
  · have h := (dataset_selection "VIIRS_NOAA21_NRT" 0 40).2.1 (by norm_num) (by decide)
    rw [h]
    decide
  · exact (dataset_selection "VIIRS_NOAA20_NRT" 0 20).2.2.1 (by norm_num)

/-- Claim C7, amended: When the substituted (historical) dataset's probe
returns zero records, the pipeline re-queries with the original dataset
exactly once, and does so iff the (clamped) requested end date satisfies
`(end_date − today).days > −30` — a condition on *today*, not on the original
dataset's registered `max_date`; after the re-query the run proceeds with the
original dataset. -/
theorem probe_requery (dataset original : String) (needHist : Bool)
    (endD today : Int) (r1 r2 : ProbeResult) :
    ((probeStage dataset original needHist endD today r1 r2).requeried = true ↔
      (r1.transportOk = true ∧ probeValid r1 = true ∧ r1.parseOk = true ∧
       r1.recordCount = 0 ∧ needHist = true ∧ dataset ≠ original ∧
       -30 < endD - today)) ∧
    ((probeStage dataset original needHist endD today r1 r2).requeried = true →
      (probeStage dataset original needHist endD today r1 r2).dataset = original) := by
  rw [probeStage]
  split_ifs <;> simp_all [bne_iff_ne]
  omega

/-- Witness for C7 (amended): a concrete zero-record probe on a substituted
dataset with `end_date − today = −10 > −30`. -/
theorem probe_requery_witness :
    ((probeStage "VIIRS_NOAA20_SP" "VIIRS_NOAA20_NRT" true (-10) 0
        ⟨true, true, false, false, true, 0⟩
        ⟨true, true, false, false, true, 5⟩).requeried = true ↔
      ((true : Bool) = true ∧ probeValid ⟨true, true, false, false, true, 0⟩ = true ∧
       (true : Bool) = true ∧ (0 : Nat) = 0 ∧ (true : Bool) = true ∧
       ("VIIRS_NOAA20_SP" : String) ≠ "VIIRS_NOAA20_NRT" ∧
       (-30 : Int) < -10 - 0)) ∧
    ((probeStage "VIIRS_NOAA20_SP" "VIIRS_NOAA20_NRT" true (-10) 0
        ⟨true, true, false, false, true, 0⟩
        ⟨true, true, false, false, true, 5⟩).requeried = true →
      (probeStage "VIIRS_NOAA20_SP" "VIIRS_NOAA20_NRT" true (-10) 0
        ⟨true, true, false, false, true, 0⟩
        ⟨true, true, false, false, true, 5⟩).dataset = "VIIRS_NOAA20_NRT") :=
  probe_requery "VIIRS_NOAA20_SP" "VIIRS_NOAA20_NRT" true (-10) 0
    ⟨true, true, false, false, true, 0⟩ ⟨true, true, false, false, true, 5⟩

/-- Claim C7, counterexample: The claim's "iff the original dataset's
`max_date` is still within 30 days of the requested window" is not the code's
condition: with `today` 50 days after `VIIRS_NOAA20_NRT`'s registered
`max_date` (2025-03-24) and the requested window `[max_date − 81,
max_date − 60]` (so 60 days before `max_date`, well outside 30 days), the
zero-record probe still triggers the re-query, because the code tests
`(end_date − today).days > −30` = `−10 > −30`. -/
theorem probe_requery_cex :
    (resolveAndProbe "VIIRS_NOAA20_NRT" (daysFromCivil 2025 3 24 - 81)
        (daysFromCivil 2025 3 24 - 60) (daysFromCivil 2025 3 24 - 50)
        ⟨true, true, false, false, true, 0⟩
        ⟨true, true, false, false, true, 5⟩).map (fun o => o.1.requeried) =
      some true ∧
    maxDateWithin30OfWindow (daysFromCivil 2025 3 24)
      (daysFromCivil 2025 3 24 - 81) (daysFromCivil 2025 3 24 - 60) = false ∧
    availRange "VIIRS_NOAA20_NRT" =
      some (daysFromCivil 2024 12 1, daysFromCivil 2025 3 24) := by
  decide

/-! ### Chunk planner lemmas -/

theorem planChunksAux_sound {m e : Int} (hm : 1 ≤ m) :
    ∀ (fuel : Nat) (cur : Int), (e + 1 - cur).toNat ≤ fuel →
      ∀ c ∈ planChunksAux m e fuel cur,
        cur ≤ c.1 ∧ c.1 ≤ c.2 ∧ c.2 ≤ e ∧ c.2 - c.1 + 1 ≤ m := by
  intro fuel
  induction fuel with
  | zero => intro cur _ c hc; simp [planChunksAux] at hc
  | succ fuel ih =>
    intro cur hfuel c hc
    rw [planChunksAux] at hc
    by_cases hcur : cur ≤ e
    · rw [if_pos hcur] at hc
      rcases List.mem_cons.1 hc with rfl | hc'
      · refine ⟨le_refl _, ?_, ?_, ?_⟩ <;> simp only [le_min_iff, min_le_iff] <;> omega
      · have := ih (min (cur + m - 1) e + 1) (by omega) c hc'
        refine ⟨?_, this.2.1, this.2.2.1, this.2.2.2⟩
        have h1 := this.1
        have h2 : cur ≤ min (cur + m - 1) e + 1 := by
          simp only [le_min_iff] at *; omega
        omega
    · rw [if_neg hcur] at hc; simp at hc

theorem planChunksAux_cover {m e : Int} (hm : 1 ≤ m) :
    ∀ (fuel : Nat) (cur : Int), (e + 1 - cur).toNat ≤ fuel →
      ∀ d : Int, (cur ≤ d ∧ d ≤ e) ↔
        ∃ c ∈ planChunksAux m e fuel cur, c.1 ≤ d ∧ d ≤ c.2 := by
  intro fuel
  induction fuel with
  | zero =>
    intro cur hfuel d
    constructor
    · intro ⟨h1, h2⟩; omega
    · rintro ⟨c, hc, -⟩; simp [planChunksAux] at hc
  | succ fuel ih =>
    intro cur hfuel d
    rw [planChunksAux]
    by_cases hcur : cur ≤ e
    · rw [if_pos hcur]
      constructor
      · intro ⟨h1, h2⟩
        by_cases hd : d ≤ min (cur + m - 1) e
        · exact ⟨(cur, min (cur + m - 1) e), List.mem_cons_self _ _, h1, hd⟩
        · have hrec := (ih (min (cur + m - 1) e + 1) (by omega) d).1
            (by constructor <;> [omega; exact h2])
          obtain ⟨c, hc, hcd⟩ := hrec
          exact ⟨c, List.mem_cons_of_mem _ hc, hcd⟩
      · rintro ⟨c, hc, hc1, hc2⟩
        rcases List.mem_cons.1 hc with rfl | hc'
        · simp only [min_le_iff] at hc2
          constructor <;> omega
        · have := planChunksAux_sound hm fuel (min (cur + m - 1) e + 1) (by omega) c hc'
          have h2 : cur ≤ min (cur + m - 1) e + 1 := by
            simp only [le_min_iff] at *; omega
          constructor <;> omega
    · rw [if_neg hcur]
      constructor
      · intro ⟨h1, h2⟩; omega
      · rintro ⟨c, hc, -⟩; simp at hc

theorem planChunksAux_head {m e : Int} :
    ∀ (fuel : Nat) (cur : Int) (b : Int × Int),
      (planChunksAux m e fuel cur).head? = some b → b.1 = cur := by
  intro fuel cur b h
  cases fuel with
  | zero => simp [planChunksAux] at h
  | succ fuel =>
    rw [planChunksAux] at h
    by_cases hcur : cur ≤ e
    · rw [if_pos hcur] at h
      simp only [List.head?_cons, Option.some.injEq] at h
      rw [← h]
    · rw [if_neg hcur] at h; simp at h

theorem planChunksAux_chain {m e : Int} (hm : 1 ≤ m) :
    ∀ (fuel : Nat) (cur : Int), (e + 1 - cur).toNat ≤ fuel →
      List.Chain' (fun a b : Int × Int => b.1 = a.2 + 1) (planChunksAux m e fuel cur) := by
  intro fuel
  induction fuel with
  | zero => intro cur _; simp [planChunksAux]
  | succ fuel ih =>
    intro cur hfuel
    rw [planChunksAux]
    by_cases hcur : cur ≤ e
    · rw [if_pos hcur]
      refine List.chain'_cons'.2 ⟨?_, ih _ (by omega)⟩
      intro b hb
      exact (planChunksAux_head fuel _ b hb).symm ▸ rfl
    · rw [if_neg hcur]; simp

theorem planChunksAux_pairwise {m e : Int} (hm : 1 ≤ m) :
    ∀ (fuel : Nat) (cur : Int), (e + 1 - cur).toNat ≤ fuel →
      List.Pairwise (fun a b : Int × Int => a.2 < b.1) (planChunksAux m e fuel cur) := by
  intro fuel
  induction fuel with
  | zero => intro cur _; simp [planChunksAux]
  | succ fuel ih =>
    intro cur hfuel
    rw [planChunksAux]
    by_cases hcur : cur ≤ e
    · rw [if_pos hcur]
      refine List.pairwise_cons.2 ⟨?_, ih _ (by omega)⟩
      intro c hc
      have := planChunksAux_sound hm fuel (min (cur + m - 1) e + 1) (by omega) c hc
      omega
    · rw [if_neg hcur]; simp

/-- Claim C1: For every pair of dates and every `max_chunk_days ≥ 1`, the chunk
plan computed by `fetch_fire_data` (after swapping start and end when
`start_date > end_date` — an auto-correction, not an error) is an ordered list
of closed date intervals that are contiguous, non-overlapping, each of length
at most `min(10, max_chunk_days)` days, and whose union is exactly
`[min(start, end), max(start, end)]`. -/
theorem fetchPlan_spec (s e chunkDays : Int) (hcd : 1 ≤ chunkDays) :
    List.Chain' (fun a b : Int × Int => b.1 = a.2 + 1) (fetchPlan s e chunkDays) ∧
    List.Pairwise (fun a b : Int × Int => a.2 < b.1) (fetchPlan s e chunkDays) ∧
    (∀ c ∈ fetchPlan s e chunkDays,
      c.1 ≤ c.2 ∧ c.2 - c.1 + 1 ≤ min 10 chunkDays) ∧
    (∀ d : Int, (min s e ≤ d ∧ d ≤ max s e) ↔
      ∃ c ∈ fetchPlan s e chunkDays, c.1 ≤ d ∧ d ≤ c.2) := by
  have hm : (1 : Int) ≤ min 10 chunkDays := le_min (by norm_num) hcd
  have hfuel : (max s e + 1 - min s e).toNat ≤ (max s e + 1 - min s e).toNat := le_refl _
  unfold fetchPlan planChunks
  refine ⟨planChunksAux_chain hm _ _ hfuel, planChunksAux_pairwise hm _ _ hfuel, ?_, ?_⟩
  · intro c hc
    have := planChunksAux_sound hm _ _ hfuel c hc
    exact ⟨this.2.1, this.2.2.2⟩
  · intro d
    exact planChunksAux_cover hm _ _ hfuel d

/-- Witness for C1: a concrete reversed range (start after end, swapped) with
`chunk_days = 7`. -/
theorem fetchPlan_spec_witness :
    (1 : Int) ≤ 7 ∧
    (List.Chain' (fun a b : Int × Int => b.1 = a.2 + 1) (fetchPlan 20 3 7) ∧
    List.Pairwise (fun a b : Int × Int => a.2 < b.1) (fetchPlan 20 3 7) ∧
    (∀ c ∈ fetchPlan 20 3 7, c.1 ≤ c.2 ∧ c.2 - c.1 + 1 ≤ min 10 7) ∧
    (∀ d : Int, (min 20 3 ≤ d ∧ d ≤ max 20 3) ↔
      ∃ c ∈ fetchPlan 20 3 7, c.1 ≤ d ∧ d ≤ c.2)) :=
  ⟨by norm_num, fetchPlan_spec 20 3 7 (by norm_num)⟩

end FireTool
